import Mathlib

/-!
# Leader-side replication and commit core of `async-raft`

A shallow embedding of `src/async-raft/src/core/replication.rs`: the
`LeaderState` replica-event handlers (`handle_revert_to_follower`,
`handle_update_matched`, `handle_needs_snapshot`), the commit calculator
(`calc_commit_index` / `get_match_log_indexes`) and the snapshot freshness
predicate `snapshot_is_within_half_of_threshold`.

Machine integers (`u64`) are modelled as `Nat`; Rust's `saturating_sub` is
`Nat` subtraction.  Asynchronous sends and detached tasks are modelled as an
explicit list of `Effect`s produced by each handler.  Parts of the repository
that the handlers call but whose source is not in scope (the `LogId` ordering,
`MembershipConfig`, `is_line_rate`, `try_remove_replication`, the core state
setters) are modelled from the specification; each such definition is marked
`Modelled from the spec:` in its doc comment.
-/

namespace Raft

/-- A Raft node id (`pub type NodeId = u64` in `lib.rs`). -/
abbrev NodeId := Nat

/-- Modelled from the spec: `LogId` is a pair `(term, index)`; the crate's
`LogId` struct is not under `src/`.  The sentinel `(0,0)` denotes "no entry". -/
structure LogId where
  term : Nat
  index : Nat
deriving DecidableEq, Repr

/-- `LogId.new(term, index)` as used by `get_match_log_indexes`. -/
def LogId.new (term index : Nat) : LogId := ⟨term, index⟩

/-- Modelled from the spec: the derived total order on `LogId` is
lexicographic on `(term, index)`. -/
def LogId.le (a b : LogId) : Bool :=
  decide (a.term < b.term) || (decide (a.term = b.term) && decide (a.index ≤ b.index))

/-- Modelled from the spec: strict lexicographic order on `LogId`. -/
def LogId.lt (a b : LogId) : Bool :=
  decide (a.term < b.term) || (decide (a.term = b.term) && decide (a.index < b.index))

/-- The lexicographic order on `LogId` is total: `¬ (a ≤ b)` is `b < a`. -/
theorem LogId.le_false_iff_lt (a b : LogId) : LogId.le a b = false ↔ LogId.lt b a = true := by
  simp only [LogId.le, LogId.lt, Bool.or_eq_false_iff, Bool.or_eq_true,
    Bool.and_eq_false_iff, Bool.and_eq_true,
    decide_eq_false_iff_not, decide_eq_true_eq]
  omega

/-- A snapshot as seen by this core: only `meta.last_log_id` matters here. -/
structure Snapshot where
  meta_last_log_id : LogId
deriving DecidableEq, Repr

/-- Check if the given snapshot data is within half of the configured
threshold (free function at the bottom of `replication.rs`); Rust's
`saturating_sub` on `u64` is `Nat` subtraction. -/
def snapshot_is_within_half_of_threshold
    (snapshot_last_index last_log_index threshold : Nat) : Bool :=
  let distance_from_line := last_log_index - snapshot_last_index
  Nat.ble distance_from_line (threshold / 2)

/-- Claim C3: `snapshot_is_within_half_of_threshold` returns true iff the
saturating subtraction `last_log_index − snapshot_last_index` is at most
`threshold / 2`; in particular `(50, 100, 500) → true`,
`(1, 500, 100) → false`, and `(200, 100, 500) → true` (the snapshot index
exceeds the last log index and the saturating distance is 0). -/
theorem snapshot_half_threshold_spec :
    (∀ snapshot_last_index last_log_index threshold : Nat,
      snapshot_is_within_half_of_threshold snapshot_last_index last_log_index threshold = true
        ↔ last_log_index - snapshot_last_index ≤ threshold / 2)
    ∧ snapshot_is_within_half_of_threshold 50 100 500 = true
    ∧ snapshot_is_within_half_of_threshold 1 500 100 = false
    ∧ snapshot_is_within_half_of_threshold 200 100 500 = true := by
  refine ⟨fun a b t => ?_, by decide, by decide, by decide⟩
  simp [snapshot_is_within_half_of_threshold]

/-- Modelled from the spec: `MembershipConfig` is either a single node set or
a joint pair `(C_old, C_new)`; node sets are modelled as lists of ids (the
Rust `BTreeSet`). -/
structure MembershipConfig where
  members : List NodeId
  members_after_consensus : Option (List NodeId)
deriving DecidableEq, Repr

/-- Modelled from the spec: `all_nodes()` is the union of all node sets of the
membership. -/
def MembershipConfig.all_nodes (m : MembershipConfig) : List NodeId :=
  (m.members ++ m.members_after_consensus.getD []).dedup

/-- The constituent node sets of the membership: one set, or both sets of a
joint configuration. -/
def MembershipConfig.config_sets (m : MembershipConfig) : List (List NodeId) :=
  match m.members_after_consensus with
  | some c_new => [m.members, c_new]
  | none => [m.members]

/-- Does a strict majority of the node set `c` report a value `≥ v` in the
match-index map `map`?  Ids absent from `map` count as not satisfying. -/
def quorum_reaches (c : List NodeId) (map : List (NodeId × Nat)) (v : Nat) : Bool :=
  c.length < 2 * (c.filter (fun id => match map.lookup id with
    | some x => decide (v ≤ x)
    | none => false)).length

/-- Modelled from the spec: `greatest_majority_value(map)` is the largest
value `v` such that in every constituent set of the membership a strict
majority of that set's members have `map[id] ≥ v`; `none` if the map cannot
satisfy the quorums. -/
def MembershipConfig.greatest_majority_value
    (m : MembershipConfig) (map : List (NodeId × Nat)) : Option Nat :=
  ((map.map Prod.snd).filter
    (fun v => (m.config_sets).all (fun c => quorum_reaches c map v))).max?

/-- Runtime tunables relevant to this core: the line-rate lag used by
`is_line_rate` and the `LogsSinceLast` snapshot threshold. -/
structure Config where
  line_rate_lag : Nat
  snapshot_threshold : Nat
deriving DecidableEq, Repr

/-- Per-peer replication state (`ReplicationState` in `core`): the match
high-water mark, an optional pending non-voter reply slot (the one-shot
sender is abstracted to a token), and the removal deadline.  The stream
handle is implicit: sends on it become `Effect`s. -/
structure ReplicationState where
  matched : LogId
  tx : Option Nat
  remove_since : Option Nat
deriving DecidableEq, Repr

/-- Modelled from the spec: a peer is line-rate iff
`last_log_id.index − matched.index ≤ line_rate_lag` (saturating). -/
def ReplicationState.is_line_rate
    (st : ReplicationState) (last_log_id : LogId) (config : Config) : Bool :=
  Nat.ble (last_log_id.index - st.matched.index) config.line_rate_lag

/-- A queued client request awaiting commit: only its `entry.log_id` and an
identifying payload matter to this core. -/
structure ClientRequestEntry where
  log_id : LogId
  payload : Nat
deriving DecidableEq, Repr

/-- Raft role states (`core::State`). -/
inductive State where
  | NonVoter
  | Follower
  | Candidate
  | Leader
  | Shutdown
deriving DecidableEq, Repr

/-- Modelled from the spec: the leader-side snapshot build state; the leader
never enters a streaming-receive state, so only `Snapshotting` exists, with
its join handle and completion broadcast sender abstracted to tokens. -/
inductive SnapshotState where
  | Snapshotting (handle : Nat) (sender : Nat)
deriving DecidableEq, Repr

/-- Observable side effects of a handler: sends on per-peer streams, the
non-voter reply, post-commit hand-offs, the snapshot reply, the detached
await-then-drop task, and the compaction trigger. -/
inductive Effect where
  | updateCommitIndex (target : NodeId) (commit_index : Nat)
  | nonVoterReply (target : NodeId) (matched : LogId)
  | postCommit (req : ClientRequestEntry)
  | sendSnapshot (snap : Snapshot)
  | spawnAwaitThenDropReply (sender : Nat)
  | triggerLogCompaction (force : Bool)
deriving DecidableEq, Repr

/-- The leader-core state relevant to the handlers of `replication.rs`.
`hard_state` models the persisted `(current_term, voted_for)` pair written by
`save_hard_state`; `metrics_reported` counts `leader_report_metrics` calls;
`now` is the current instant used by the removal deadline. -/
structure LeaderState where
  id : NodeId
  current_term : Nat
  last_log_id : LogId
  commit_index : Nat
  membership : MembershipConfig
  nodes : List (NodeId × ReplicationState)
  awaiting_committed : List ClientRequestEntry
  config : Config
  voted_for : Option NodeId
  hard_state : Nat × Option NodeId
  current_leader : Option NodeId
  target_state : State
  snapshot_state : Option SnapshotState
  leader_metrics : List (NodeId × LogId)
  metrics_reported : Nat
  now : Nat
deriving DecidableEq, Repr

/-- The candidate `LogId` used by `get_match_log_indexes` for node `id`:
`last_log_id` for the leader itself, else `nodes[id].matched` if present,
else `LogId::new(0, 0)`. -/
def candidate_log_id (s : LeaderState) (id : NodeId) : LogId :=
  if id = s.id then s.last_log_id
  else
    match s.nodes.lookup id with
    | some x => x.matched
    | none => LogId.new 0 0

/-- `get_match_log_indexes`: for every id in `all_nodes()`, insert
`id → candidate.index` iff the candidate's term equals `current_term`. -/
def get_match_log_indexes (s : LeaderState) : List (NodeId × Nat) :=
  s.membership.all_nodes.filterMap (fun id =>
    let matched := candidate_log_id s id
    if matched.term = s.current_term then some (id, matched.index) else none)

/-- `calc_commit_index`: the greatest majority value of the match-index map,
defaulting to the current `commit_index`. -/
def calc_commit_index (s : LeaderState) : Nat :=
  let repl_indexes := get_match_log_indexes s
  let committed := s.membership.greatest_majority_value repl_indexes
  committed.getD s.commit_index

/-- `update_leader_metrics`: insert `target → {matched}` into the reporting
mirror (`BTreeMap::insert`: replace if present, else add). -/
def update_leader_metrics (s : LeaderState) (target : NodeId) (matched : LogId) : LeaderState :=
  if (s.leader_metrics.lookup target).isSome then
    { s with leader_metrics :=
        s.leader_metrics.map (fun p => if p.1 = target then (target, matched) else p) }
  else
    { s with leader_metrics := s.leader_metrics ++ [(target, matched)] }

/-- `leader_report_metrics` only emits a report; modelled as a counter bump. -/
def leader_report_metrics (s : LeaderState) : LeaderState :=
  { s with metrics_reported := s.metrics_reported + 1 }

/-- Modelled from the spec: `try_remove_replication(target)` — the peer's
stream is dropped iff its removal deadline `remove_since` has passed and the
peer is no longer in the membership; returns whether removal happened. -/
def try_remove_replication (s : LeaderState) (target : NodeId) : Bool × LeaderState :=
  match s.nodes.lookup target with
  | some st =>
    match st.remove_since with
    | some since =>
      if since ≤ s.now ∧ target ∉ s.membership.all_nodes then
        (true, { s with nodes := s.nodes.filter (fun p => p.1 ≠ target) })
      else (false, s)
    | none => (false, s)
  | none => (false, s)

/-- Step 4 of `handle_update_matched`: if the (freshly updated) peer is
line-rate and a non-voter reply slot is pending, take the sender and send
`AddNonVoterResponse { matched: state.matched }`. -/
def resolve_non_voter (st : ReplicationState) (target : NodeId)
    (last_log_id : LogId) (config : Config) : ReplicationState × List Effect :=
  if st.is_line_rate last_log_id config then
    match st.tx with
    | some _ => ({ st with tx := none }, [Effect.nonVoterReply target st.matched])
    | none => (st, [])
  else (st, [])

/-- Store an updated `ReplicationState` for `target` (the `get_mut` write). -/
def replace_node (nodes : List (NodeId × ReplicationState)) (target : NodeId)
    (st : ReplicationState) : List (NodeId × ReplicationState) :=
  nodes.map (fun p => if p.1 = target then (target, st) else p)

/-- The index computed by
`awaiting_committed.iter().enumerate().take_while(..).last().map(|(idx, _)| idx)`:
the position of the last element of the maximal head prefix whose
`log_id.index ≤ commit_index`. -/
def drain_offset (q : List ClientRequestEntry) (commit_index : Nat) : Option Nat :=
  ((q.enum.takeWhile (fun p => Nat.ble p.2.log_id.index commit_index)).getLast?).map Prod.fst

/-- `awaiting_committed.drain(..=offset)`: returns
`(remaining queue, drained requests in order)`; no drain if the offset is
`none`. -/
def drain_awaiting (q : List ClientRequestEntry) (commit_index : Nat) :
    List ClientRequestEntry × List ClientRequestEntry :=
  match drain_offset q commit_index with
  | none => (q, [])
  | some offset => (q.drop (offset + 1), q.take (offset + 1))

/-- The commit-advancement tail of `handle_update_matched`: the early return
when `matched.index ≤ commit_index`, the commit recomputation, the
`UpdateCommitIndex` broadcast, the drain of `awaiting_committed`, and the
final metrics report. -/
def advance_commit (s2 : LeaderState) (matched : LogId) : LeaderState × List Effect :=
  if matched.index ≤ s2.commit_index then
    (leader_report_metrics s2, [])
  else
    let commit_index := calc_commit_index s2
    if s2.commit_index < commit_index then
      let s3 := { s2 with commit_index := commit_index }
      let sends := s3.nodes.map (fun p => Effect.updateCommitIndex p.1 commit_index)
      let rest := (drain_awaiting s3.awaiting_committed commit_index).1
      let drained := (drain_awaiting s3.awaiting_committed commit_index).2
      let s4 := { s3 with awaiting_committed := rest }
      (leader_report_metrics s4, sends ++ drained.map Effect.postCommit)
    else (leader_report_metrics s2, [])

/-- The tail of `handle_update_matched` after the per-peer record has been
written back: the removal check / metrics refresh followed by
`advance_commit`. -/
def post_update_phase (s : LeaderState) (target : NodeId) (matched : LogId) :
    LeaderState × List Effect :=
  let removed := (try_remove_replication s target).1
  let s1 := (try_remove_replication s target).2
  let s2 := if removed then s1 else update_leader_metrics s1 target matched
  advance_commit s2 matched

/-- Result of `handle_update_matched`: either the updated state together with
the emitted effects, or the fatal `assert!` failure. -/
inductive Outcome where
  | ok (s : LeaderState) (effects : List Effect)
  | panic
deriving DecidableEq, Repr

/-- The new commit index of a successful outcome. -/
def Outcome.commit_index? : Outcome → Option Nat
  | Outcome.ok s _ => some s.commit_index
  | Outcome.panic => none

/-- `handle_update_matched(target, matched)`: unknown targets are dropped; a
regression of `matched` below the stored value fires the monotonicity
`assert!`; otherwise the record is updated, a pending non-voter reply is
resolved at line rate, and `post_update_phase` runs. -/
def handle_update_matched (s : LeaderState) (target : NodeId) (matched : LogId) : Outcome :=
  match s.nodes.lookup target with
  | none => Outcome.ok s []
  | some st =>
    if LogId.le st.matched matched then
      let st1 := { st with matched := matched }
      let st2 := (resolve_non_voter st1 target s.last_log_id s.config).1
      let effects1 := (resolve_non_voter st1 target s.last_log_id s.config).2
      let s1 := { s with nodes := replace_node s.nodes target st2 }
      let s2 := (post_update_phase s1 target matched).1
      let effects2 := (post_update_phase s1 target matched).2
      Outcome.ok s2 (effects1 ++ effects2)
    else Outcome.panic

/-- Modelled from the spec: `update_current_term(term, voted_for)` sets the
current term and voted-for. -/
def update_current_term (s : LeaderState) (term : Nat) (voted : Option NodeId) : LeaderState :=
  { s with current_term := term, voted_for := voted }

/-- Modelled from the spec: `save_hard_state` persists the hard state pair
`(current_term, voted_for)`. -/
def save_hard_state (s : LeaderState) : LeaderState :=
  { s with hard_state := (s.current_term, s.voted_for) }

/-- Modelled from the spec: `update_current_leader(Unknown)` clears the known
leader. -/
def update_current_leader_unknown (s : LeaderState) : LeaderState :=
  { s with current_leader := none }

/-- `set_target_state`: record the role the core should transition to. -/
def set_target_state (s : LeaderState) (st : State) : LeaderState :=
  { s with target_state := st }

/-- `handle_revert_to_follower(_, term)`: on `term > current_term`, bump the
term with voted-for cleared, persist hard state, clear the known leader and
transition to Follower; otherwise do nothing.  The target id is ignored. -/
def handle_revert_to_follower (s : LeaderState) (_target : NodeId) (term : Nat) : LeaderState :=
  if s.current_term < term then
    set_target_state
      (update_current_leader_unknown (save_hard_state (update_current_term s term none)))
      State.Follower
  else s

/-- The branch of `handle_needs_snapshot` taken when no fresh-enough snapshot
exists: `snapshot_state.take()` is matched; a `Snapshotting` build spawns the
detached await-then-drop task and is restored; otherwise compaction is
triggered with `force = true`. -/
def needs_snapshot_fallback (s : LeaderState) : LeaderState × List Effect :=
  let taken := s.snapshot_state
  let s0 := { s with snapshot_state := none }
  match taken with
  | some (SnapshotState.Snapshotting handle sender) =>
    ({ s0 with snapshot_state := some (SnapshotState.Snapshotting handle sender) },
      [Effect.spawnAwaitThenDropReply sender])
  | none => (s0, [Effect.triggerLogCompaction true])

/-- `handle_needs_snapshot`: the storage fetch result is passed in explicitly
(`Except.error` models a storage error, surfaced unchanged); a stored
snapshot within half of the threshold is sent through the reply channel,
else the fallback runs. -/
def handle_needs_snapshot (s : LeaderState) (fetched : Except Unit (Option Snapshot)) :
    Except Unit (LeaderState × List Effect) :=
  let threshold := s.config.snapshot_threshold
  match fetched with
  | Except.error e => Except.error e
  | Except.ok current_snapshot_opt =>
    match current_snapshot_opt with
    | some snapshot =>
      if snapshot_is_within_half_of_threshold
          snapshot.meta_last_log_id.index s.last_log_id.index threshold then
        Except.ok (s, [Effect.sendSnapshot snapshot])
      else Except.ok (needs_snapshot_fallback s)
    | none => Except.ok (needs_snapshot_fallback s)

/-- Process a sequence of `UpdateMatched` events; `none` if any event fires
the monotonicity assertion. -/
def runUpdates (s : LeaderState) : List (NodeId × LogId) → Option LeaderState
  | [] => some s
  | e :: rest =>
    match handle_update_matched s e.1 e.2 with
    | Outcome.ok s' _ => runUpdates s' rest
    | Outcome.panic => none

/-- The effects of a successful outcome (empty on panic). -/
def Outcome.effects : Outcome → List Effect
  | Outcome.ok _ e => e
  | Outcome.panic => []

/-- The state of a successful outcome, with a default for panic. -/
def Outcome.stateD (d : LeaderState) : Outcome → LeaderState
  | Outcome.ok s _ => s
  | Outcome.panic => d

/-- The result of `handle_needs_snapshot`, with a default on storage error. -/
def needs_snapshot_result (s : LeaderState) (fetched : Except Unit (Option Snapshot)) :
    LeaderState × List Effect :=
  (handle_needs_snapshot s fetched).toOption.getD (s, [])

/-- The state reached after the per-peer record write of `handle_update_matched`
(step 3 together with the non-voter resolution of step 4), used to name the
state at which `calc_commit_index` runs. -/
def mid_state (s : LeaderState) (target : NodeId) (matched : LogId)
    (st : ReplicationState) : LeaderState :=
  let st2 := (resolve_non_voter { st with matched := matched } target s.last_log_id s.config).1
  { s with nodes := replace_node s.nodes target st2 }

/-- The commit index computed by `calc_commit_index` inside
`handle_update_matched`, on the state after the record write, the (vacuous)
removal check and the metrics refresh. -/
def post_commit_calc (s : LeaderState) (target : NodeId) (matched : LogId)
    (st : ReplicationState) : Nat :=
  calc_commit_index (update_leader_metrics (mid_state s target matched st) target matched)

/-- Shared tunables for the concrete end-to-end scenarios. -/
def testConfig : Config := { line_rate_lag := 0, snapshot_threshold := 100 }

/-- The three-node single membership `{1, 2, 3}` of scenarios S1/S2. -/
def members123 : MembershipConfig := { members := [1, 2, 3], members_after_consensus := none }

/-- A voter replication record with no pending reply slot and no removal. -/
def voterAt (matched : LogId) : ReplicationState :=
  { matched := matched, tx := none, remove_since := none }

/-- Scenario S2 base state: leader 1, term 5, `last_log_id = (5,10)`,
`commit_index = 7`, peers 2 and 3 still at the sentinel `(0,0)`. -/
def scenarioS2 : LeaderState :=
  { id := 1, current_term := 5, last_log_id := ⟨5, 10⟩, commit_index := 7,
    membership := members123,
    nodes := [(2, voterAt ⟨0, 0⟩), (3, voterAt ⟨0, 0⟩)],
    awaiting_committed := [], config := testConfig, voted_for := some 1,
    hard_state := (5, some 1), current_leader := some 1, target_state := State.Leader,
    snapshot_state := none, leader_metrics := [], metrics_reported := 0, now := 0 }

/-- The S2 state after the event `UpdateMatched{2, (4,9)}`. -/
def scenarioS2after : LeaderState :=
  Outcome.stateD scenarioS2 (handle_update_matched scenarioS2 2 (LogId.new 4 9))

/-- Scenario S1: peer 3 already matched `(5,8)`; entries 8–10 awaiting commit. -/
def scenarioS1 : LeaderState :=
  { scenarioS2 with
    nodes := [(2, voterAt ⟨0, 0⟩), (3, voterAt ⟨5, 8⟩)],
    awaiting_committed := [⟨⟨5, 8⟩, 8⟩, ⟨⟨5, 9⟩, 9⟩, ⟨⟨5, 10⟩, 10⟩] }

/-- Scenario S6: peer 2 already matched `(5,10)`. -/
def scenarioS6 : LeaderState :=
  { scenarioS2 with nodes := [(2, voterAt ⟨5, 10⟩)] }

/-- Scenario S4: the leader's last log index is 150. -/
def scenarioS4 : LeaderState :=
  { scenarioS2 with last_log_id := ⟨5, 150⟩ }

/-- A non-voter scenario: peer 2 has a pending reply slot (token 77). -/
def scenarioNonVoter : LeaderState :=
  { scenarioS2 with
    nodes := [(2, { matched := ⟨0, 0⟩, tx := some 77, remove_since := none }),
              (3, voterAt ⟨5, 8⟩)] }

/-! ## Theorems -/

/-- Claim C1: the match-index map built by the commit calculator contains an
entry for a node id in `all_nodes()` iff that node's candidate `LogId`
(`last_log_id` for self, `nodes[id].matched` if present, else `(0,0)`) has
term equal to `current_term`, and the entry's value is the candidate's index;
nodes whose candidate is from a prior term are absent, not mapped to zero.
In scenario S2 (term 5, `last_log_id = (5,10)`, peer 2 reporting `(4,9)`)
the map is `{1 → 10}` only and `commit_index` stays 7. -/
theorem match_index_map_spec :
    (∀ (s : LeaderState) (id : NodeId) (v : Nat),
      (id, v) ∈ get_match_log_indexes s ↔
        (id ∈ s.membership.all_nodes
          ∧ (candidate_log_id s id).term = s.current_term
          ∧ v = (candidate_log_id s id).index))
    ∧ get_match_log_indexes scenarioS2after = [(1, 10)]
    ∧ (handle_update_matched scenarioS2 2 (LogId.new 4 9)).commit_index? = some 7 := by
  refine ⟨fun s id v => ?_, by decide, by decide⟩
  simp only [get_match_log_indexes, List.mem_filterMap]
  constructor
  · rintro ⟨a, ha, hfa⟩
    split_ifs at hfa with hterm
    · have h1 := congrArg Prod.fst (Option.some.inj hfa)
      have h2 := congrArg Prod.snd (Option.some.inj hfa)
      simp only at h1 h2
      subst h1
      exact ⟨ha, hterm, h2.symm⟩
  · rintro ⟨hmem, hterm, hv⟩
    exact ⟨id, hmem, by simp [hterm, hv]⟩

/-- Claim C4: `handle_revert_to_follower` with `term > current_term` sets the
term with voted-for cleared, persists the hard state, clears the known leader
and transitions to Follower; with `term ≤ current_term` it leaves the whole
state unchanged. -/
theorem revert_to_follower_spec :
    ∀ (s : LeaderState) (target : NodeId) (term : Nat),
      (s.current_term < term →
        handle_revert_to_follower s target term =
          { s with current_term := term, voted_for := none, hard_state := (term, none),
                   current_leader := none, target_state := State.Follower })
      ∧ (term ≤ s.current_term → handle_revert_to_follower s target term = s) := by
  intro s target term
  constructor
  · intro h
    simp [handle_revert_to_follower, h, update_current_term, save_hard_state,
      update_current_leader_unknown, set_target_state]
  · intro h
    simp [handle_revert_to_follower, Nat.not_lt.mpr h]

/-- Witness for C4: scenario S3 — `current_term = 5`, event term 7. -/
theorem revert_to_follower_spec_witness :
    handle_revert_to_follower scenarioS2 2 7 =
      { scenarioS2 with current_term := 7, voted_for := none, hard_state := (7, none),
                        current_leader := none, target_state := State.Follower } :=
  (revert_to_follower_spec scenarioS2 2 7).1 (by decide)

/-- Claim C10: the outcome of `handle_revert_to_follower` is independent of
the event's target id — the handler ignores the target argument entirely. -/
theorem revert_to_follower_target_independent :
    ∀ (s : LeaderState) (t1 t2 : NodeId) (term : Nat),
      handle_revert_to_follower s t1 term = handle_revert_to_follower s t2 term :=
  fun _ _ _ _ => rfl

/-- Claim C7: an `UpdateMatched` event whose target is not a key of `nodes`
returns `Ok` and leaves the entire leader state unchanged, emitting nothing
(in particular no broadcast, no metrics update, no commit recomputation). -/
theorem update_matched_unknown_target :
    ∀ (s : LeaderState) (target : NodeId) (matched : LogId),
      s.nodes.lookup target = none →
      handle_update_matched s target matched = Outcome.ok s [] := by
  intro s target matched h
  unfold handle_update_matched
  rw [h]

/-- Witness for C7: node 9 is unknown to the S2 leader. -/
theorem update_matched_unknown_target_witness :
    handle_update_matched scenarioS2 9 (LogId.new 5 1) = Outcome.ok scenarioS2 [] :=
  update_matched_unknown_target scenarioS2 9 (LogId.new 5 1) (by decide)

/-- `try_remove_replication` never changes the commit index. -/
theorem try_remove_replication_commit_index (s : LeaderState) (target : NodeId) :
    (try_remove_replication s target).2.commit_index = s.commit_index := by
  unfold try_remove_replication
  repeat' split
  all_goals rfl

/-- `update_leader_metrics` only changes the metrics mirror: commit index,
nodes and the awaiting queue are untouched. -/
theorem update_leader_metrics_commit_index (s : LeaderState) (target : NodeId) (matched : LogId) :
    (update_leader_metrics s target matched).commit_index = s.commit_index := by
  unfold update_leader_metrics
  split <;> rfl

/-- `update_leader_metrics` does not change `nodes`. -/
theorem update_leader_metrics_nodes (s : LeaderState) (target : NodeId) (matched : LogId) :
    (update_leader_metrics s target matched).nodes = s.nodes := by
  unfold update_leader_metrics
  split <;> rfl

/-- `update_leader_metrics` does not change `awaiting_committed`. -/
theorem update_leader_metrics_awaiting (s : LeaderState) (target : NodeId) (matched : LogId) :
    (update_leader_metrics s target matched).awaiting_committed = s.awaiting_committed := by
  unfold update_leader_metrics
  split <;> rfl

/-- The commit index never decreases across `advance_commit`. -/
theorem advance_commit_commit_mono (s2 : LeaderState) (matched : LogId) :
    s2.commit_index ≤ (advance_commit s2 matched).1.commit_index := by
  simp only [advance_commit]
  split_ifs with hle hlt
  · exact le_refl _
  · exact le_of_lt hlt
  · exact le_refl _

/-- The commit index never decreases across `post_update_phase`. -/
theorem post_update_phase_commit_mono (s : LeaderState) (target : NodeId) (matched : LogId) :
    s.commit_index ≤ (post_update_phase s target matched).1.commit_index := by
  have hc1 := try_remove_replication_commit_index s target
  have hc2 : (if (try_remove_replication s target).1 then (try_remove_replication s target).2
      else update_leader_metrics (try_remove_replication s target).2 target matched).commit_index
      = s.commit_index := by
    split
    · exact hc1
    · rw [update_leader_metrics_commit_index, hc1]
  simp only [post_update_phase]
  rw [← hc2]
  exact advance_commit_commit_mono _ matched

/-- The commit index never decreases across a successful
`handle_update_matched`. -/
theorem handle_update_matched_commit_mono (s : LeaderState) (target : NodeId) (matched : LogId)
    (s' : LeaderState) (effects : List Effect)
    (h : handle_update_matched s target matched = Outcome.ok s' effects) :
    s.commit_index ≤ s'.commit_index := by
  unfold handle_update_matched at h
  rcases hl : s.nodes.lookup target with _ | st
  · rw [hl] at h
    dsimp only at h
    injection h with h1 _
    rw [← h1]
  · rw [hl] at h
    dsimp only at h
    split_ifs at h with hle
    injection h with h1 _
    rw [← h1]
    exact post_update_phase_commit_mono (mid_state s target matched st) target matched

/-- Claim C2: `commit_index` never decreases: across any sequence of
`UpdateMatched` events the commit index after each event is at least its
value before; when `greatest_majority_value` returns no value,
`calc_commit_index` returns the current commit index; and a successful
`handle_update_matched` never lowers the commit index (it assigns the
calculated value only when strictly greater). -/
theorem commit_index_monotone :
    (∀ (events : List (NodeId × LogId)) (s s' : LeaderState),
      runUpdates s events = some s' → s.commit_index ≤ s'.commit_index)
    ∧ (∀ s : LeaderState,
      s.membership.greatest_majority_value (get_match_log_indexes s) = none →
      calc_commit_index s = s.commit_index)
    ∧ (∀ (s s' : LeaderState) (target : NodeId) (matched : LogId) (effects : List Effect),
      handle_update_matched s target matched = Outcome.ok s' effects →
      s.commit_index ≤ s'.commit_index) := by
  refine ⟨?_, ?_, ?_⟩
  · intro events
    induction events with
    | nil =>
      intro s s' h
      simp only [runUpdates] at h
      obtain rfl := Option.some.inj h
      exact le_refl _
    | cons e rest ih =>
      intro s s' h
      unfold runUpdates at h
      cases ho : handle_update_matched s e.1 e.2 with
      | ok s1 effects1 =>
        rw [ho] at h
        dsimp only at h
        exact le_trans (handle_update_matched_commit_mono s e.1 e.2 s1 effects1 ho) (ih s1 s' h)
      | panic =>
        rw [ho] at h
        dsimp only at h
        exact absurd h (by simp)
  · intro s h
    simp [calc_commit_index, h]
  · exact fun s s' target matched effects h =>
      handle_update_matched_commit_mono s target matched s' effects h

/-- Witness for C2: the S2 event sequence keeps `commit_index` at 7, and the
S2 match-index map has no majority value. -/
theorem commit_index_monotone_witness :
    (scenarioS2.commit_index ≤ scenarioS2after.commit_index
      ∧ calc_commit_index scenarioS2 = scenarioS2.commit_index) :=
  ⟨commit_index_monotone.1 [(2, LogId.new 4 9)] scenarioS2 scenarioS2after (by decide),
   commit_index_monotone.2.1 scenarioS2 (by decide)⟩

/-- `resolve_non_voter` only touches the reply slot: `matched` and
`remove_since` are unchanged. -/
theorem resolve_non_voter_frame (st : ReplicationState) (target : NodeId)
    (last_log_id : LogId) (config : Config) :
    (resolve_non_voter st target last_log_id config).1.matched = st.matched
    ∧ (resolve_non_voter st target last_log_id config).1.remove_since = st.remove_since := by
  unfold resolve_non_voter
  repeat' split
  all_goals exact ⟨rfl, rfl⟩

/-- Looking up the written-back target in `replace_node` yields the new
record, provided the target was a key. -/
theorem lookup_replace_node (target : NodeId) (st : ReplicationState) :
    ∀ nodes : List (NodeId × ReplicationState),
      (nodes.lookup target).isSome = true →
      (replace_node nodes target st).lookup target = some st := by
  intro nodes
  induction nodes with
  | nil => intro h; simp [List.lookup] at h
  | cons p rest ih =>
    intro h
    unfold replace_node
    rw [List.map_cons]
    by_cases hp : p.1 = target
    · rw [if_pos hp]
      simp [List.lookup]
    · rw [if_neg hp]
      have hb : (target == p.1) = false := by
        simp only [beq_eq_false_iff_ne, ne_eq]
        exact fun he => hp he.symm
      simp only [List.lookup, hb] at h ⊢
      exact ih h

/-- Looking up a key removed by the filter of `try_remove_replication`
yields nothing. -/
theorem lookup_filter_self (target : NodeId) :
    ∀ nodes : List (NodeId × ReplicationState),
      (nodes.filter (fun p => p.1 ≠ target)).lookup target = none := by
  intro nodes
  induction nodes with
  | nil => rfl
  | cons p rest ih =>
    by_cases hp : p.1 = target
    · simpa [List.filter_cons, hp] using ih
    · have hb : (target == p.1) = false := by
        simp only [beq_eq_false_iff_ne, ne_eq]
        exact fun he => hp he.symm
      simpa [List.filter_cons, hp, List.lookup, hb] using ih

/-- `try_remove_replication` leaves `nodes` unchanged or removes exactly the
target's entry. -/
theorem try_remove_replication_nodes (s : LeaderState) (target : NodeId) :
    (try_remove_replication s target).2.nodes = s.nodes
    ∨ (try_remove_replication s target).2.nodes = s.nodes.filter (fun p => p.1 ≠ target) := by
  unfold try_remove_replication
  repeat' split
  all_goals first
  | exact Or.inl rfl
  | exact Or.inr rfl

/-- `advance_commit` does not change `nodes`. -/
theorem advance_commit_nodes (s2 : LeaderState) (matched : LogId) :
    (advance_commit s2 matched).1.nodes = s2.nodes := by
  simp only [advance_commit]
  split_ifs <;> rfl

/-- `post_update_phase` leaves `nodes` unchanged or removes exactly the
target's entry. -/
theorem post_update_phase_nodes (s : LeaderState) (target : NodeId) (matched : LogId) :
    (post_update_phase s target matched).1.nodes = s.nodes
    ∨ (post_update_phase s target matched).1.nodes
        = s.nodes.filter (fun p => p.1 ≠ target) := by
  simp only [post_update_phase, advance_commit_nodes]
  rcases try_remove_replication_nodes s target with h | h
  · split
    · exact Or.inl h
    · rw [update_leader_metrics_nodes]
      exact Or.inl h
  · split
    · exact Or.inr h
    · rw [update_leader_metrics_nodes]
      exact Or.inr h

/-- If the target is a key of `nodes`, the record the target maps to after
`post_update_phase` (if it survived the removal check) is exactly the one
written back by the resolution step. -/
theorem handle_update_matched_target_record (s : LeaderState) (target : NodeId)
    (matched : LogId) (st st' : ReplicationState)
    (hl : s.nodes.lookup target = some st)
    (hst' : ((post_update_phase (mid_state s target matched st) target matched).1.nodes).lookup
        target = some st') :
    st' = (resolve_non_voter { st with matched := matched } target s.last_log_id s.config).1 := by
  rcases post_update_phase_nodes (mid_state s target matched st) target matched with h | h
  · rw [h] at hst'
    have heq := lookup_replace_node target
      ((resolve_non_voter { st with matched := matched } target s.last_log_id s.config).1)
      s.nodes (by rw [hl]; rfl)
    rw [show (mid_state s target matched st).nodes = replace_node s.nodes target
        ((resolve_non_voter { st with matched := matched } target
          s.last_log_id s.config).1) from rfl] at hst'
    rw [heq] at hst'
    exact (Option.some.inj hst').symm
  · rw [h, lookup_filter_self target] at hst'
    exact absurd hst' (by simp)

/-- When the freshly updated record is line-rate and a reply slot is pending,
`resolve_non_voter` consumes the slot and emits the response. -/
theorem resolve_non_voter_tx_some (st : ReplicationState) (target : NodeId)
    (l : LogId) (c : Config)
    (hline : st.is_line_rate l c = true) (htx : st.tx.isSome = true) :
    resolve_non_voter st target l c =
      ({ st with tx := none }, [Effect.nonVoterReply target st.matched]) := by
  unfold resolve_non_voter
  rw [if_pos hline]
  cases htx' : st.tx with
  | none => rw [htx'] at htx; simp at htx
  | some u => rfl

/-- With no pending slot, `resolve_non_voter` does nothing. -/
theorem resolve_non_voter_tx_none (st : ReplicationState) (target : NodeId)
    (l : LogId) (c : Config) (htx : st.tx = none) :
    resolve_non_voter st target l c = (st, []) := by
  unfold resolve_non_voter
  split_ifs with hline
  · rw [htx]
  · rfl

/-- Below line rate, `resolve_non_voter` does nothing. -/
theorem resolve_non_voter_not_line (st : ReplicationState) (target : NodeId)
    (l : LogId) (c : Config) (hline : st.is_line_rate l c = false) :
    resolve_non_voter st target l c = (st, []) := by
  unfold resolve_non_voter
  rw [if_neg (by simp [hline])]

/-- Both halves of the commit-advance effect list are broadcasts or
post-commit hand-offs. -/
theorem effects_shape_append (sends_src : List (NodeId × ReplicationState)) (ci : Nat)
    (drained : List ClientRequestEntry) :
    ∀ e ∈ (sends_src.map (fun p => Effect.updateCommitIndex p.1 ci)
        ++ drained.map Effect.postCommit),
      (∃ n c, e = Effect.updateCommitIndex n c) ∨ ∃ r, e = Effect.postCommit r := by
  intro e he
  rcases List.mem_append.mp he with h | h
  · rcases List.mem_map.mp h with ⟨p, _, rfl⟩
    exact Or.inl ⟨p.1, _, rfl⟩
  · rcases List.mem_map.mp h with ⟨r, _, rfl⟩
    exact Or.inr ⟨r, rfl⟩

/-- Every effect emitted by `post_update_phase` is a commit-index broadcast
or a post-commit hand-off. -/
theorem post_update_phase_effects_shape (s : LeaderState) (target : NodeId) (matched : LogId) :
    ∀ e ∈ (post_update_phase s target matched).2,
      (∃ n c, e = Effect.updateCommitIndex n c) ∨ ∃ r, e = Effect.postCommit r := by
  simp only [post_update_phase, advance_commit]
  split_ifs <;> first
  | exact effects_shape_append _ _ _
  | simp

/-- In particular, `post_update_phase` never emits a non-voter response. -/
theorem non_voter_reply_not_in_post_phase (s : LeaderState) (target t : NodeId)
    (matched m : LogId) :
    Effect.nonVoterReply t m ∉ (post_update_phase s target matched).2 := by
  intro hmem
  rcases post_update_phase_effects_shape s target matched _ hmem with ⟨n, c, h⟩ | ⟨r, h⟩ <;>
    simp at h

/-- Claim C5: for a known target, `handle_update_matched` panics (the
monotonicity `assert!` fires) exactly when the reported `matched` is
strictly below the stored one in the lexicographic `(term, index)` order;
under the precondition `matched ≥ state.matched` it returns `Ok` and the
surviving record for the target carries the reported `matched`. -/
theorem update_matched_assert_spec :
    ∀ (s : LeaderState) (target : NodeId) (matched : LogId) (st : ReplicationState),
      s.nodes.lookup target = some st →
      ((handle_update_matched s target matched = Outcome.panic ↔
          LogId.lt matched st.matched = true)
        ∧ (LogId.le st.matched matched = true →
            ∃ s' effects, handle_update_matched s target matched = Outcome.ok s' effects ∧
              ∀ st', s'.nodes.lookup target = some st' → st'.matched = matched)) := by
  intro s target matched st hl
  unfold handle_update_matched
  rw [hl]
  dsimp only
  constructor
  · constructor
    · intro hp
      cases hle : LogId.le st.matched matched with
      | false => exact (LogId.le_false_iff_lt st.matched matched).mp hle
      | true =>
        rw [if_pos hle] at hp
        exact absurd hp (by simp)
    · intro hlt
      rw [if_neg]
      rw [(LogId.le_false_iff_lt st.matched matched).mpr hlt]
      exact Bool.false_ne_true
  · intro hle
    rw [if_pos hle]
    refine ⟨_, _, rfl, ?_⟩
    intro st' hst'
    have hst2 : ((post_update_phase (mid_state s target matched st)
        target matched).1.nodes).lookup target = some st' := hst'
    rw [handle_update_matched_target_record s target matched st st' hl hst2]
    exact (resolve_non_voter_frame _ target s.last_log_id s.config).1

/-- Witness for C5: scenario S6 — stored `matched = (5,10)`, event reports
`(5,9)`; the assertion fires. -/
theorem update_matched_assert_spec_witness :
    handle_update_matched scenarioS6 2 (LogId.new 5 9) = Outcome.panic :=
  ((update_matched_assert_spec scenarioS6 2 (LogId.new 5 9)
      (voterAt ⟨5, 10⟩) (by decide)).1).mpr (by decide)

/-- Claim C8: a pending non-voter reply slot is resolved exactly when the
peer reaches line rate: if after the `matched` update the peer is line-rate
and a slot is pending, the slot is consumed (so at most one response per
registered slot) and `AddNonVoterResponse{matched}` with the fresh `matched`
is emitted; if the peer is not line-rate the slot is left in place and no
response is emitted. -/
theorem non_voter_line_rate_spec :
    ∀ (s : LeaderState) (target : NodeId) (matched : LogId) (st : ReplicationState),
      s.nodes.lookup target = some st →
      LogId.le st.matched matched = true →
      ∃ s' effects, handle_update_matched s target matched = Outcome.ok s' effects ∧
        (if ReplicationState.is_line_rate { st with matched := matched }
            s.last_log_id s.config then
          (st.tx.isSome = true →
            (Effect.nonVoterReply target matched ∈ effects
              ∧ ∀ st', s'.nodes.lookup target = some st' → st'.tx = none))
          ∧ (st.tx = none → Effect.nonVoterReply target matched ∉ effects)
        else
          (Effect.nonVoterReply target matched ∉ effects
            ∧ ∀ st', s'.nodes.lookup target = some st' → st'.tx = st.tx)) := by
  intro s target matched st hl hle
  unfold handle_update_matched
  rw [hl]
  dsimp only
  rw [if_pos hle]
  refine ⟨_, _, rfl, ?_⟩
  split_ifs with hline
  · constructor
    · intro htx
      have hres := resolve_non_voter_tx_some { st with matched := matched } target
        s.last_log_id s.config hline htx
      constructor
      · rw [hres]
        simp
      · intro st' hst'
        have hst2 : ((post_update_phase (mid_state s target matched st)
            target matched).1.nodes).lookup target = some st' := hst'
        rw [handle_update_matched_target_record s target matched st st' hl hst2, hres]
    · intro htxn
      have hres := resolve_non_voter_tx_none { st with matched := matched } target
        s.last_log_id s.config htxn
      rw [hres]
      simpa using non_voter_reply_not_in_post_phase _ target target matched matched
  · have hres := resolve_non_voter_not_line { st with matched := matched } target
      s.last_log_id s.config (by simpa using hline)
    constructor
    · rw [hres]
      simpa using non_voter_reply_not_in_post_phase _ target target matched matched
    · intro st' hst'
      have hst2 : ((post_update_phase (mid_state s target matched st)
          target matched).1.nodes).lookup target = some st' := hst'
      rw [handle_update_matched_target_record s target matched st st' hl hst2, hres]

/-- Witness for C8: the pending non-voter (slot token 77) reaches line rate
at `(5,10)` and its response is emitted. -/
theorem non_voter_line_rate_spec_witness :
    Effect.nonVoterReply 2 (LogId.new 5 10) ∈
      (handle_update_matched scenarioNonVoter 2 (LogId.new 5 10)).effects := by
  obtain ⟨s', effects, hok, hcond⟩ := non_voter_line_rate_spec scenarioNonVoter 2
    (LogId.new 5 10) ⟨⟨0, 0⟩, some 77, none⟩ (by decide) (by decide)
  rw [hok]
  simp only [Outcome.effects]
  split_ifs at hcond with hli
  · exact (hcond.1 (by decide)).1
  · exact absurd (by decide) hli

/-- `takeWhile` over an enumerated list with an index-blind predicate is the
enumeration of `takeWhile` on the plain list. -/
theorem takeWhile_enumFrom {α : Type} (p : α → Bool) :
    ∀ (n : Nat) (l : List α),
      (l.enumFrom n).takeWhile (fun x => p x.2) = (l.takeWhile p).enumFrom n := by
  intro n l
  induction l generalizing n with
  | nil => rfl
  | cons a t ih =>
    cases hp : p a with
    | false => simp [List.enumFrom, List.takeWhile_cons, hp]
    | true => simp [List.enumFrom, List.takeWhile_cons, hp, ih]

/-- The index of the last element of an enumerated-from-`n` list. -/
theorem getLast?_enumFrom_fst {α : Type} :
    ∀ (n : Nat) (l : List α),
      ((l.enumFrom n).getLast?).map Prod.fst =
        if l.length = 0 then none else some (n + l.length - 1) := by
  intro n l
  induction l generalizing n with
  | nil => rfl
  | cons a t ih =>
    cases t with
    | nil => simp [List.enumFrom]
    | cons b t' =>
      have h1 : (a :: b :: t').enumFrom n = (n, a) :: (n + 1, b) :: t'.enumFrom (n + 2) := rfl
      rw [h1, List.getLast?_cons_cons]
      have h2 : ((n + 1, b) :: t'.enumFrom (n + 2)) = (b :: t').enumFrom (n + 1) := rfl
      rw [h2, ih (n + 1)]
      simp only [List.length_cons, Nat.succ_ne_zero, if_false]
      congr 1
      omega

/-- Taking the length of the `takeWhile` prefix recovers that prefix. -/
theorem take_length_takeWhile {α : Type} (p : α → Bool) :
    ∀ l : List α, l.take (l.takeWhile p).length = l.takeWhile p := by
  intro l
  induction l with
  | nil => rfl
  | cons a t ih =>
    cases hp : p a with
    | false => simp [List.takeWhile_cons, hp]
    | true => simp [List.takeWhile_cons, hp, ih]

/-- Dropping the length of the `takeWhile` prefix is `dropWhile`. -/
theorem drop_length_takeWhile {α : Type} (p : α → Bool) :
    ∀ l : List α, l.drop (l.takeWhile p).length = l.dropWhile p := by
  intro l
  induction l with
  | nil => rfl
  | cons a t ih =>
    cases hp : p a with
    | false => simp [List.takeWhile_cons, List.dropWhile_cons, hp]
    | true => simp [List.takeWhile_cons, List.dropWhile_cons, hp, ih]

/-- If nothing is taken, nothing is dropped. -/
theorem dropWhile_of_takeWhile_nil {α : Type} (p : α → Bool) :
    ∀ l : List α, l.takeWhile p = [] → l.dropWhile p = l := by
  intro l
  cases l with
  | nil => intro _; rfl
  | cons a t =>
    intro h
    cases hp : p a with
    | false => simp [List.dropWhile_cons, hp]
    | true =>
      rw [List.takeWhile_cons, if_pos hp] at h
      exact absurd h (by simp)

/-- The `enumerate / take_while / last / drain` combination of
`handle_update_matched` splits the queue at the maximal head prefix whose
log index is at or below the new commit index. -/
theorem drain_awaiting_eq (q : List ClientRequestEntry) (ci : Nat) :
    drain_awaiting q ci =
      (q.dropWhile (fun r => Nat.ble r.log_id.index ci),
       q.takeWhile (fun r => Nat.ble r.log_id.index ci)) := by
  unfold drain_awaiting drain_offset
  rw [show q.enum = q.enumFrom 0 from rfl]
  rw [takeWhile_enumFrom (fun r => Nat.ble r.log_id.index ci) 0 q]
  rw [getLast?_enumFrom_fst 0 (q.takeWhile (fun r => Nat.ble r.log_id.index ci))]
  by_cases h : (q.takeWhile (fun r => Nat.ble r.log_id.index ci)).length = 0
  · rw [if_pos h]
    have htw : q.takeWhile (fun r => Nat.ble r.log_id.index ci) = [] :=
      List.length_eq_zero.mp h
    rw [dropWhile_of_takeWhile_nil _ q htw, htw]
  · rw [if_neg h]
    have hlen : 0 + (q.takeWhile (fun r => Nat.ble r.log_id.index ci)).length - 1 + 1
        = (q.takeWhile (fun r => Nat.ble r.log_id.index ci)).length := by omega
    dsimp only
    rw [hlen, take_length_takeWhile, drop_length_takeWhile]

/-- Modelled from the spec: `try_remove_replication` does nothing when the
target has no removal deadline. -/
theorem try_remove_replication_no_deadline (s : LeaderState) (target : NodeId)
    (st : ReplicationState) (hl : s.nodes.lookup target = some st)
    (hrs : st.remove_since = none) :
    try_remove_replication s target = (false, s) := by
  unfold try_remove_replication
  rw [hl]
  dsimp only
  rw [hrs]

/-- Claim C6: when `handle_update_matched` establishes a new commit index, it
broadcasts `UpdateCommitIndex` with the new value to every entry of `nodes`
(one send per entry), then removes from `awaiting_committed` exactly the
maximal head prefix of requests with `log_id.index ≤` the new commit index,
handing each removed request to the post-commit hand-off in insertion order;
later requests remain queued. -/
theorem commit_broadcast_and_drain_spec :
    ∀ (s : LeaderState) (target : NodeId) (matched : LogId) (st : ReplicationState),
      s.nodes.lookup target = some st →
      LogId.le st.matched matched = true →
      st.remove_since = none →
      s.commit_index < matched.index →
      s.commit_index < post_commit_calc s target matched st →
      ∀ s' effects, handle_update_matched s target matched = Outcome.ok s' effects →
        s'.commit_index = post_commit_calc s target matched st
        ∧ effects =
            (resolve_non_voter { st with matched := matched } target s.last_log_id s.config).2
            ++ ((mid_state s target matched st).nodes.map
                  (fun p => Effect.updateCommitIndex p.1 (post_commit_calc s target matched st))
              ++ (s.awaiting_committed.takeWhile
                  (fun r => Nat.ble r.log_id.index (post_commit_calc s target matched st))).map
                    Effect.postCommit)
        ∧ s'.awaiting_committed =
            s.awaiting_committed.dropWhile
              (fun r => Nat.ble r.log_id.index (post_commit_calc s target matched st)) := by
  intro s target matched st hl hle hrs hgt hadv s' effects heq
  have heq2 : Outcome.ok ((post_update_phase (mid_state s target matched st) target matched).1)
      ((resolve_non_voter { st with matched := matched } target s.last_log_id s.config).2
        ++ (post_update_phase (mid_state s target matched st) target matched).2)
      = Outcome.ok s' effects := by
    rw [← heq]
    unfold handle_update_matched
    rw [hl]
    dsimp only
    rw [if_pos hle]
    rfl
  injection heq2 with hs' heff
  have hmid : (mid_state s target matched st).nodes = replace_node s.nodes target
      ((resolve_non_voter { st with matched := matched } target s.last_log_id s.config).1) := rfl
  have hlk : ((mid_state s target matched st).nodes).lookup target
      = some ((resolve_non_voter { st with matched := matched } target
          s.last_log_id s.config).1) := by
    rw [hmid]
    exact lookup_replace_node target _ s.nodes (by rw [hl]; rfl)
  have hrs2 : ((resolve_non_voter { st with matched := matched } target
      s.last_log_id s.config).1).remove_since = none := by
    rw [(resolve_non_voter_frame _ target s.last_log_id s.config).2]
    exact hrs
  have htr := try_remove_replication_no_deadline (mid_state s target matched st) target _ hlk hrs2
  have hpup : post_update_phase (mid_state s target matched st) target matched
      = advance_commit (update_leader_metrics (mid_state s target matched st) target matched)
          matched := by
    unfold post_update_phase
    rw [htr]
    rfl
  have humc : (update_leader_metrics (mid_state s target matched st)
      target matched).commit_index = s.commit_index := by
    rw [update_leader_metrics_commit_index]
    rfl
  have hguard : ¬ matched.index ≤ (update_leader_metrics (mid_state s target matched st)
      target matched).commit_index := by
    rw [humc]
    omega
  have hlt2 : (update_leader_metrics (mid_state s target matched st)
        target matched).commit_index
      < calc_commit_index (update_leader_metrics (mid_state s target matched st)
        target matched) := by
    rw [humc]
    exact hadv
  have hadva : advance_commit
        (update_leader_metrics (mid_state s target matched st) target matched) matched
      = (leader_report_metrics
          { update_leader_metrics (mid_state s target matched st) target matched with
            commit_index := calc_commit_index
              (update_leader_metrics (mid_state s target matched st) target matched),
            awaiting_committed := (drain_awaiting
              (update_leader_metrics (mid_state s target matched st)
                target matched).awaiting_committed
              (calc_commit_index (update_leader_metrics (mid_state s target matched st)
                target matched))).1 },
         (update_leader_metrics (mid_state s target matched st) target matched).nodes.map
            (fun p => Effect.updateCommitIndex p.1 (calc_commit_index
              (update_leader_metrics (mid_state s target matched st) target matched)))
          ++ ((drain_awaiting
              (update_leader_metrics (mid_state s target matched st)
                target matched).awaiting_committed
              (calc_commit_index (update_leader_metrics (mid_state s target matched st)
                target matched))).2).map Effect.postCommit) := by
    unfold advance_commit
    rw [if_neg hguard, if_pos hlt2]
  refine ⟨?_, ?_, ?_⟩
  · rw [← hs', hpup, hadva]
    rfl
  · rw [← heff, hpup, hadva]
    dsimp only
    rw [drain_awaiting_eq]
    dsimp only
    rw [update_leader_metrics_nodes, update_leader_metrics_awaiting]
    rfl
  · rw [← hs', hpup, hadva]
    dsimp only [leader_report_metrics]
    rw [drain_awaiting_eq]
    dsimp only
    rw [update_leader_metrics_awaiting]
    rfl

/-- Witness for C6: scenario S1 — the event `UpdateMatched{2,(5,10)}` lifts
the commit index to 10, broadcasts it to peers 2 and 3, and drains entries
8, 9, 10 in order. -/
theorem commit_broadcast_and_drain_spec_witness :
    (handle_update_matched scenarioS1 2 (LogId.new 5 10)).commit_index? = some 10
    ∧ (handle_update_matched scenarioS1 2 (LogId.new 5 10)).effects =
        [Effect.updateCommitIndex 2 10, Effect.updateCommitIndex 3 10,
         Effect.postCommit ⟨⟨5, 8⟩, 8⟩, Effect.postCommit ⟨⟨5, 9⟩, 9⟩,
         Effect.postCommit ⟨⟨5, 10⟩, 10⟩] := by
  have h := commit_broadcast_and_drain_spec scenarioS1 2 (LogId.new 5 10)
    (voterAt ⟨0, 0⟩) (by decide) (by decide) (by decide) (by decide) (by decide)
    (Outcome.stateD scenarioS1 (handle_update_matched scenarioS1 2 (LogId.new 5 10)))
    ((handle_update_matched scenarioS1 2 (LogId.new 5 10)).effects) (by rfl)
  constructor
  · have hc := h.1
    rw [show post_commit_calc scenarioS1 2 (LogId.new 5 10) (voterAt ⟨0, 0⟩) = 10
      from by decide] at hc
    rw [show handle_update_matched scenarioS1 2 (LogId.new 5 10)
      = Outcome.ok (Outcome.stateD scenarioS1
          (handle_update_matched scenarioS1 2 (LogId.new 5 10)))
        ((handle_update_matched scenarioS1 2 (LogId.new 5 10)).effects) from rfl]
    rw [Outcome.commit_index?, hc]
  · rw [h.2.1]
    decide

/-- `needs_snapshot_fallback` keeps the leader state intact (an in-progress
`Snapshotting` value is taken and restored unchanged) and, when a build is in
progress, its only effect is the detached await-then-drop task on the build's
broadcast sender. -/
theorem needs_snapshot_fallback_spec (s : LeaderState) :
    (needs_snapshot_fallback s).1 = s
    ∧ (∀ hdl sender, s.snapshot_state = some (SnapshotState.Snapshotting hdl sender) →
        (needs_snapshot_fallback s).2 = [Effect.spawnAwaitThenDropReply sender]) := by
  unfold needs_snapshot_fallback
  cases hss : s.snapshot_state with
  | none =>
    dsimp only
    constructor
    · cases s
      simp_all
    · intro hdl sender hcontra
      exact absurd hcontra (by simp)
  | some ss =>
    cases ss with
    | Snapshotting hdl sender =>
      dsimp only
      constructor
      · cases s
        simp_all
      · intro hdl' sender' hsome
        injection hsome with hinj
        injection hinj with _ h2
        rw [h2]

/-- Claim C9: `handle_needs_snapshot` leaves `snapshot_state` unchanged in
both synchronous branches: a fresh-enough stored snapshot is sent through the
reply channel with the whole state untouched; with a stale (or missing)
snapshot and an in-progress `Snapshotting{handle, sender}` build, the same
value is restored into `snapshot_state` and the reply is handed to a
detached task on the build's broadcast sender. -/
theorem needs_snapshot_frame_spec :
    ∀ (s : LeaderState) (snap_opt : Option Snapshot) (r : LeaderState × List Effect),
      handle_needs_snapshot s (Except.ok snap_opt) = Except.ok r →
      r.1.snapshot_state = s.snapshot_state
      ∧ (∀ snap, snap_opt = some snap →
          snapshot_is_within_half_of_threshold snap.meta_last_log_id.index
            s.last_log_id.index s.config.snapshot_threshold = true →
          r = (s, [Effect.sendSnapshot snap]))
      ∧ (∀ hdl sender,
          s.snapshot_state = some (SnapshotState.Snapshotting hdl sender) →
          (snap_opt = none ∨ (∀ snap, snap_opt = some snap →
            snapshot_is_within_half_of_threshold snap.meta_last_log_id.index
              s.last_log_id.index s.config.snapshot_threshold = false)) →
          r = (s, [Effect.spawnAwaitThenDropReply sender])) := by
  intro s snap_opt r h
  unfold handle_needs_snapshot at h
  dsimp only at h
  cases snap_opt with
  | none =>
    injection h with hr
    refine ⟨?_, ?_, ?_⟩
    · rw [← hr, (needs_snapshot_fallback_spec s).1]
    · intro snap hcontra
      exact absurd hcontra (by simp)
    · intro hdl sender hss _
      rw [← hr]
      have h1 := (needs_snapshot_fallback_spec s).1
      have h2 := (needs_snapshot_fallback_spec s).2 hdl sender hss
      rw [show needs_snapshot_fallback s
          = ((needs_snapshot_fallback s).1, (needs_snapshot_fallback s).2) from rfl, h1, h2]
  | some snap =>
    dsimp only at h
    split_ifs at h with hfresh
    · injection h with hr
      refine ⟨?_, ?_, ?_⟩
      · rw [← hr]
      · intro snap' hs' _
        injection hs' with hs''
        rw [← hr, ← hs'']
      · intro hdl sender hss hcond
        rcases hcond with hcontra | hcond
        · exact absurd hcontra (by simp)
        · exact absurd hfresh (by simp [hcond snap rfl])
    · injection h with hr
      refine ⟨?_, ?_, ?_⟩
      · rw [← hr, (needs_snapshot_fallback_spec s).1]
      · intro snap' hs' hfresh'
        injection hs' with hs''
        rw [← hs''] at hfresh'
        exact absurd hfresh' hfresh
      · intro hdl sender hss _
        rw [← hr]
        have h1 := (needs_snapshot_fallback_spec s).1
        have h2 := (needs_snapshot_fallback_spec s).2 hdl sender hss
        rw [show needs_snapshot_fallback s
            = ((needs_snapshot_fallback s).1, (needs_snapshot_fallback s).2) from rfl, h1, h2]

/-- Witness for C9: scenario S4 — `threshold = 100`, `last_log_id.index = 150`,
stored snapshot at index 120 is fresh enough and is sent through the reply;
the state (in particular `snapshot_state`) is unchanged. -/
theorem needs_snapshot_frame_spec_witness :
    needs_snapshot_result scenarioS4 (Except.ok (some ⟨⟨5, 120⟩⟩))
      = (scenarioS4, [Effect.sendSnapshot ⟨⟨5, 120⟩⟩]) := by
  have h := needs_snapshot_frame_spec scenarioS4 (some ⟨⟨5, 120⟩⟩)
    (needs_snapshot_result scenarioS4 (Except.ok (some ⟨⟨5, 120⟩⟩))) (by rfl)
  exact h.2.1 ⟨⟨5, 120⟩⟩ rfl (by decide)

end Raft
